import Mathlib

/-!
Verification of the cross-exchange matching and arbitrage-detection engine of
the realtradinggod repository.

The Python sources embedded here are `markets/services/matcher.py`
(EventMatcher: similarity scoring and match resolution) and
`markets/services/arbitrage.py` (ArbitrageDetector: single-market arbitrage
detection and opportunity persistence).

Modeling conventions:
* Python floats are modeled as rationals (`ℚ`); all the arithmetic in scope is
  elementary (+, -, *, /, min, comparisons).
* Python sets of strings are `Finset String`; Python lists are `List`.
* The regex feature extractors of matcher.py (extract_years, extract_dates,
  extract_numbers, extract_entities, extract_key_terms) produce six string
  sets per text; the scoring logic consumes only these sets, so an event is
  modeled as carrying its extracted `Features`.  The topic extractor
  `detect_topic` is pure substring logic and is embedded directly.
* The TF-IDF cosine step calls into sklearn inside a try/except; it is modeled
  as an `Except Unit ℚ` input (ok = the cosine value, error = a raised
  exception caught by the bare except).
* The thread-pool fan-out of find_matches evaluates one independent task per
  left-side event and finally sorts by score; it is modeled as a `filterMap`
  followed by a merge sort.
* The Django table of ArbitrageOpportunity rows is modeled as a `List` of
  rows with an auto-increment id counter.
-/

namespace RealTradingGod

/-- Lowercase a string character by character (Python `str.lower` on the ASCII
inputs in scope). -/
def lowerStr (s : String) : String := ⟨s.data.map Char.toLower⟩

/-- Does the character list start with the given pattern list. -/
def startsWithCL : List Char → List Char → Bool
  | [], _ => true
  | _ :: _, [] => false
  | p :: ps, c :: cs => p == c && startsWithCL ps cs

/-- Does the haystack contain the pattern as a contiguous segment. -/
def containsCL (pat : List Char) : List Char → Bool
  | [] => startsWithCL pat []
  | c :: cs => startsWithCL pat (c :: cs) || containsCL pat (cs)

/-- Python substring test `pat in s`. -/
def strIn (pat s : String) : Bool := containsCL pat.data s.data

/-- Topic keyword table (matcher.py, EventMatcher.TOPICS). -/
def TOPICS : List (String × List String) := [
  ("politics", ["election", "president", "vote", "congress", "senate",
    "governor", "trump", "biden", "republican", "democrat", "gop",
    "primary", "nomination"]),
  ("crypto", ["bitcoin", "btc", "ethereum", "eth", "crypto", "blockchain",
    "token", "coin"]),
  ("economics", ["fed", "federal reserve", "rate", "inflation", "gdp",
    "recession", "unemployment", "cpi", "interest"]),
  ("tech", ["ai", "artificial intelligence", "apple", "google", "meta",
    "microsoft", "nvidia", "openai", "tesla", "spacex"]),
  ("sports", ["nba", "nfl", "mlb", "super bowl", "championship", "playoffs",
    "world series", "mvp"]),
  ("entertainment", ["oscar", "grammy", "emmy", "movie", "album", "billboard"])]

/-- Topic detection (matcher.py detect_topic): a topic is assigned when any of
its keywords occurs as a substring of the lowercased text. -/
def detect_topic (text : String) : Finset String :=
  let t := lowerStr text
  TOPICS.foldl
    (fun acc p => if p.2.any (fun kw => strIn kw t) then insert p.1 acc else acc) ∅

/-- The six feature sets one text yields in compute_similarity (matcher.py
lines 135-147): years, dates, topics, stopword-filtered key terms of the
abbreviation-expanded text, capitalized-word entities, and numeric tokens. -/
structure Features where
  years : Finset String
  dates : Finset String
  topics : Finset String
  terms : Finset String
  entities : Finset String
  numbers : Finset String
deriving DecidableEq

/-- Year matching block (matcher.py lines 151-158): any shared year gives the
full score 1.0. -/
def year_score (years1 years2 : Finset String) : ℚ :=
  if years1.Nonempty ∧ years2.Nonempty then
    if (years1 ∩ years2).Nonempty then 1 else 0
  else 0

/-- Date matching block (lines 160-167): any shared date key gives 1.0. -/
def date_score (dates1 dates2 : Finset String) : ℚ :=
  if dates1.Nonempty ∧ dates2.Nonempty then
    if (dates1 ∩ dates2).Nonempty then 1 else 0
  else 0

/-- Topic matching block (lines 169-176): size of the common-topic set divided
by the size of the larger topic set. -/
def topic_score (topics1 topics2 : Finset String) : ℚ :=
  if topics1.Nonempty ∧ topics2.Nonempty then
    if (topics1 ∩ topics2).Nonempty then
      ((topics1 ∩ topics2).card : ℚ) / ((max topics1.card topics2.card : ℕ) : ℚ)
    else 0
  else 0

/-- Key-term block (lines 178-185): Jaccard similarity, intersection size over
union size. -/
def term_score (terms1 terms2 : Finset String) : ℚ :=
  if terms1.Nonempty ∧ terms2.Nonempty then
    if (terms1 ∩ terms2).Nonempty then
      ((terms1 ∩ terms2).card : ℚ) / (((terms1 ∪ terms2).card : ℕ) : ℚ)
    else 0
  else 0

/-- Entity block (lines 187-194): intersection size over the larger set size. -/
def entity_score (entities1 entities2 : Finset String) : ℚ :=
  if entities1.Nonempty ∧ entities2.Nonempty then
    if (entities1 ∩ entities2).Nonempty then
      ((entities1 ∩ entities2).card : ℚ) / ((max entities1.card entities2.card : ℕ) : ℚ)
    else 0
  else 0

/-- Number block (lines 196-203): intersection size over the larger set size. -/
def number_score (numbers1 numbers2 : Finset String) : ℚ :=
  if numbers1.Nonempty ∧ numbers2.Nonempty then
    if (numbers1 ∩ numbers2).Nonempty then
      ((numbers1 ∩ numbers2).card : ℚ) / ((max numbers1.card numbers2.card : ℕ) : ℚ)
    else 0
  else 0

/-- Outcome of the TF-IDF cosine step (lines 205-214): tfidf_score is
initialized to 0.0 and overwritten by the sklearn cosine value unless the
try-block raises, in which case the bare except keeps it at 0. -/
def tfidf_score_of : Except Unit ℚ → ℚ
  | Except.ok v => v
  | Except.error _ => 0

/-- The strong-signal count of compute_similarity (lines 227-233): how many of
the four tests year above 0.5, topic above 0.5, term above 0.3 and entity
above 0.3 pass (the Python sum of four booleans). -/
def strong_signals (yearScore topicScore termScore entityScore : ℚ) : ℕ :=
  (if yearScore > 1/2 then 1 else 0) + (if topicScore > 1/2 then 1 else 0) +
  (if termScore > 3/10 then 1 else 0) + (if entityScore > 3/10 then 1 else 0)

/-- Combined similarity score (compute_similarity, matcher.py lines 126-238),
as a function of the two texts' extracted feature sets and of the outcome of
the TF-IDF step: weighted sum of the seven signals, then a 1.2x bonus capped
at 1.0 when at least three of the four strong-signal tests pass. -/
def compute_similarity (f1 f2 : Features) (tfidf : Except Unit ℚ) : ℚ :=
  let yearScore := year_score f1.years f2.years
  let dateScore := date_score f1.dates f2.dates
  let topicScore := topic_score f1.topics f2.topics
  let termScore := term_score f1.terms f2.terms
  let entityScore := entity_score f1.entities f2.entities
  let numberScore := number_score f1.numbers f2.numbers
  let tfidfScore := tfidf_score_of tfidf
  let combined := 25/100 * yearScore + 10/100 * dateScore + 15/100 * topicScore +
    20/100 * termScore + 10/100 * entityScore + 5/100 * numberScore +
    15/100 * tfidfScore
  if strong_signals yearScore topicScore termScore entityScore ≥ 3 then
    min 1 (combined * (12/10))
  else combined

/-- Modelled from the spec: Jaccard similarity of two sets, the size of the
intersection divided by the size of the union. -/
def jaccardSpec (s1 s2 : Finset String) : ℚ :=
  ((s1 ∩ s2).card : ℚ) / (((s1 ∪ s2).card : ℕ) : ℚ)

/-- Modelled from the spec side for the amended C4: the overlap coefficient
used by the code, intersection size over the size of the larger set. -/
def overlapMaxSpec (s1 s2 : Finset String) : ℚ :=
  ((s1 ∩ s2).card : ℚ) / ((max s1.card s2.card : ℕ) : ℚ)

/-- An event as seen by the matcher: its database id and the feature sets
extracted from its title. -/
structure MEvent where
  id : ℕ
  feats : Features
deriving DecidableEq

/-- Score of one candidate pair: compute_similarity over the two events'
features, with `tf` the per-pair outcome of the TF-IDF vectorization step. -/
def pairScore (tf : MEvent → MEvent → Except Unit ℚ) (a b : MEvent) : ℚ :=
  compute_similarity a.feats b.feats (tf a b)

/-- Loop body of _find_best_match_for_event (lines 277-286): keep the
candidate exactly when its score strictly exceeds the best score so far. -/
def bestStep (tf : MEvent → MEvent → Except Unit ℚ) (k : MEvent)
    (acc : Option MEvent × ℚ) (p : MEvent) : Option MEvent × ℚ :=
  if pairScore tf k p > acc.2 then (some p, pairScore tf k p) else acc

/-- Best Polymarket match for one Kalshi event (_find_best_match_for_event,
matcher.py lines 266-292): scan all candidates with best_score starting at 0,
then return the kept candidate only when one was kept (best_match not None)
and its score reaches the threshold. -/
def find_best_match_for_event (tf : MEvent → MEvent → Except Unit ℚ)
    (kalshiEvent : MEvent) (polymarketEvents : List MEvent) (threshold : ℚ) :
    Option (MEvent × MEvent × ℚ) :=
  let best := polymarketEvents.foldl (bestStep tf kalshiEvent) (none, 0)
  match best.1 with
  | some bestMatch =>
    if best.2 ≥ threshold then some (kalshiEvent, bestMatch, best.2) else none
  | none => none

/-- Class attribute EventMatcher.SIMILARITY_THRESHOLD = 0.5. -/
def SIMILARITY_THRESHOLD : ℚ := 1/2

/-- find_matches (matcher.py lines 294-331).  Python's
`threshold = threshold or self.SIMILARITY_THRESHOLD` replaces both None and
the falsy 0.0 by the default.  Empty input on either side returns the empty
list.  The thread pool produces at most one result per Kalshi event
(collected in nondeterministic completion order) and the final
`matches.sort(key=..., reverse=True)` orders them by score descending; this
is modeled as filterMap followed by a merge sort. -/
def find_matches (tf : MEvent → MEvent → Except Unit ℚ)
    (kalshiEvents polymarketEvents : List MEvent) (threshold : Option ℚ) :
    List (MEvent × MEvent × ℚ) :=
  let t := match threshold with
    | none => SIMILARITY_THRESHOLD
    | some v => if v = 0 then SIMILARITY_THRESHOLD else v
  if kalshiEvents.isEmpty || polymarketEvents.isEmpty then []
  else
    (kalshiEvents.filterMap
      (fun k => find_best_match_for_event tf k polymarketEvents t)).mergeSort
      (fun x y => decide (y.2.2 ≤ x.2.2))

/-- One entry of a market's outcomes list (arbitrage.py): outcome.get('name','')
is the name, outcome.get('price', 0) reads an optional price (none models a
missing or null price, which Python reads back as the falsy 0/None). -/
structure Outcome where
  name : String
  price : Option ℚ
deriving DecidableEq

/-- A market as consumed by detect_single_market_arb. -/
structure Market where
  id : ℕ
  outcomes : List Outcome
deriving DecidableEq

/-- Python truthiness test `price and price > 0` of get_best_prices line 31
(missing price defaults to the falsy 0). -/
def goodPrice : Option ℚ → Bool
  | none => false
  | some p => (p != 0) && (p > 0)

/-- The Yes-side name test of get_best_prices line 32:
`'yes' in name or name == 'yes'` on the lowercased name. -/
def isYesName (name : String) : Bool :=
  strIn "yes" (lowerStr name) || (lowerStr name == "yes")

/-- The No-side name test of get_best_prices line 34 (an elif, only reached
when the Yes test failed): `'no' in name or name == 'no'`. -/
def isNoName (name : String) : Bool :=
  strIn "no" (lowerStr name) || (lowerStr name == "no")

/-- Loop body of get_best_prices (lines 27-35): an outcome with a truthy
positive price overwrites the Yes slot when its name contains "yes", else the
No slot when its name contains "no". -/
def priceStep (acc : Option ℚ × Option ℚ) (o : Outcome) : Option ℚ × Option ℚ :=
  if goodPrice o.price then
    if isYesName o.name then (o.price, acc.2)
    else if isNoName o.name then (acc.1, o.price)
    else acc
  else acc

/-- get_best_prices (arbitrage.py lines 18-37): fold the loop body over the
outcome list starting from (None, None). -/
def get_best_prices (outcomes : List Outcome) : Option ℚ × Option ℚ :=
  outcomes.foldl priceStep (none, none)

/-- Class attribute ArbitrageDetector.MIN_PROFIT_THRESHOLD = 0.01. -/
def MIN_PROFIT_THRESHOLD : ℚ := 1/100

/-- The fields of the opportunity dict built by detect_single_market_arb
(lines 58-69); the two positions of the dict are represented by the Yes and
No prices they carry together with the market id. -/
structure SingleArbOpp where
  marketId : ℕ
  yesPrice : ℚ
  noPrice : ℚ
  totalCost : ℚ
  guaranteedReturn : ℚ
  profit : ℚ
  profitPercent : ℚ
  expectedValue : ℚ
deriving DecidableEq

/-- detect_single_market_arb (arbitrage.py lines 39-71): None unless both
sides have a best price; an opportunity dict exactly when
total_cost < 1 - MIN_PROFIT_THRESHOLD. -/
def detect_single_market_arb (m : Market) : Option SingleArbOpp :=
  match get_best_prices m.outcomes with
  | (some yesPrice, some noPrice) =>
    let totalCost := yesPrice + noPrice
    if totalCost < 1 - MIN_PROFIT_THRESHOLD then
      let profit := 1 - totalCost
      some {
        marketId := m.id
        yesPrice := yesPrice
        noPrice := noPrice
        totalCost := totalCost
        guaranteedReturn := 1
        profit := profit
        profitPercent := profit / totalCost * 100
        expectedValue := 1 / totalCost }
    else none
  | _ => none

/-- The fields of a detected opportunity that save_opportunities persists. -/
structure DetectedOpp where
  profitPercent : ℚ
  expectedValue : ℚ
  totalCost : ℚ
  guaranteedReturn : ℚ
deriving DecidableEq

/-- A persisted ArbitrageOpportunity row. -/
structure OppRow where
  oppId : ℕ
  profitPercent : ℚ
  expectedValue : ℚ
  isActive : Bool
deriving DecidableEq

/-- Rows created by the insertion loop of save_opportunities (lines 202-224):
one new row per detected opportunity, created with is_active=True and fresh
auto-increment ids starting at nextId. -/
def newOppRows (nextId : ℕ) (opps : List DetectedOpp) : List OppRow :=
  opps.enum.map (fun p =>
    { oppId := nextId + p.1, profitPercent := p.2.profitPercent,
      expectedValue := p.2.expectedValue, isActive := true })

/-- save_opportunities (arbitrage.py lines 197-226) on the table of
ArbitrageOpportunity rows: first `objects.all().update(is_active=False)`
marks every existing row inactive, then the loop inserts one active row per
detected opportunity. -/
def save_opportunities (db : List OppRow) (nextId : ℕ) (opps : List DetectedOpp) :
    List OppRow :=
  db.map (fun r => { r with isActive := false }) ++ newOppRows nextId opps

/-- Concrete feature sets used in witnesses: a text mentioning only the key
term "trump" (for example the title "Trump" after stopword filtering). -/
def exFeats : Features := ⟨∅, ∅, ∅, {"trump"}, ∅, ∅⟩

/-- Concrete feature sets with three strong signals: a shared year, a shared
topic and a shared key term. -/
def exStrongF : Features := ⟨{"2025"}, ∅, {"politics"}, {"trump"}, ∅, ∅⟩

/-- A concrete Kalshi-side event for witnesses. -/
def exK : MEvent := ⟨1, exFeats⟩

/-- A concrete Polymarket-side event for witnesses. -/
def exP : MEvent := ⟨2, exFeats⟩

/-- A TF-IDF oracle that always succeeds with cosine 0 (orthogonal vectors). -/
def exTfZero : MEvent → MEvent → Except Unit ℚ := fun _ _ => Except.ok 0

/-- A TF-IDF oracle that always succeeds with cosine 1 (identical texts). -/
def exTfOne : MEvent → MEvent → Except Unit ℚ := fun _ _ => Except.ok 1

/-- The concrete market of the spec scenario: outcomes Yes at 0.40 and No
at 0.55. -/
def exMarket : Market := ⟨1, [⟨"Yes", some (2/5)⟩, ⟨"No", some (11/20)⟩]⟩

/-- A market whose Yes outcome has price exactly 0. -/
def exZeroMarket : Market := ⟨7, [⟨"Yes", some 0⟩, ⟨"No", some (1/2)⟩]⟩

/-- A concrete opportunity table with one active and one inactive row. -/
def exDb : List OppRow := [⟨0, 5, 2, true⟩, ⟨1, 3, 2, false⟩]

/-- A concrete batch of two detected opportunities. -/
def exOpps : List DetectedOpp := [⟨5, 21/20, 19/20, 1⟩, ⟨3, 1, 1, 1⟩]

/-! ## Helper lemmas about the individual signal scores -/

/-- The date block is textually the same computation as the year block. -/
theorem date_score_eq_year_score : date_score = year_score := rfl

/-- The entity block is textually the same computation as the topic block. -/
theorem entity_score_eq_topic_score : entity_score = topic_score := rfl

/-- The number block is textually the same computation as the topic block. -/
theorem number_score_eq_topic_score : number_score = topic_score := rfl

/-- The year signal is 0 or 1, hence in the unit interval. -/
theorem year_score_bounds (s1 s2 : Finset String) :
    0 ≤ year_score s1 s2 ∧ year_score s1 s2 ≤ 1 := by
  unfold year_score
  split
  · split <;> norm_num
  · norm_num

/-- The topic signal lies in the unit interval. -/
theorem topic_score_bounds (s1 s2 : Finset String) :
    0 ≤ topic_score s1 s2 ∧ topic_score s1 s2 ≤ 1 := by
  unfold topic_score
  by_cases h1 : s1.Nonempty ∧ s2.Nonempty
  · rw [if_pos h1]
    by_cases h2 : (s1 ∩ s2).Nonempty
    · rw [if_pos h2]
      constructor
      · positivity
      · apply div_le_one_of_le₀
        · have hc : (s1 ∩ s2).card ≤ max s1.card s2.card :=
            le_trans (Finset.card_le_card Finset.inter_subset_left) (le_max_left _ _)
          exact_mod_cast hc
        · positivity
    · rw [if_neg h2]; norm_num
  · rw [if_neg h1]; norm_num

/-- The key-term Jaccard signal lies in the unit interval. -/
theorem term_score_bounds (s1 s2 : Finset String) :
    0 ≤ term_score s1 s2 ∧ term_score s1 s2 ≤ 1 := by
  unfold term_score
  by_cases h1 : s1.Nonempty ∧ s2.Nonempty
  · rw [if_pos h1]
    by_cases h2 : (s1 ∩ s2).Nonempty
    · rw [if_pos h2]
      constructor
      · positivity
      · apply div_le_one_of_le₀
        · exact_mod_cast Finset.card_le_card (Finset.inter_subset_union)
        · positivity
    · rw [if_neg h2]; norm_num
  · rw [if_neg h1]; norm_num

/-- Disjoint feature sets give a zero year-shaped signal. -/
theorem year_score_disjoint (s1 s2 : Finset String) (h : Disjoint s1 s2) :
    year_score s1 s2 = 0 := by
  unfold year_score
  rw [Finset.disjoint_iff_inter_eq_empty.mp h]
  simp

/-- Disjoint feature sets give a zero topic-shaped signal. -/
theorem topic_score_disjoint (s1 s2 : Finset String) (h : Disjoint s1 s2) :
    topic_score s1 s2 = 0 := by
  unfold topic_score
  rw [Finset.disjoint_iff_inter_eq_empty.mp h]
  simp

/-- Disjoint feature sets give a zero term signal. -/
theorem term_score_disjoint (s1 s2 : Finset String) (h : Disjoint s1 s2) :
    term_score s1 s2 = 0 := by
  unfold term_score
  rw [Finset.disjoint_iff_inter_eq_empty.mp h]
  simp

/-- The combined score is nonnegative whenever the TF-IDF value is. -/
theorem compute_similarity_nonneg (f1 f2 : Features) (tc : Except Unit ℚ)
    (htf : 0 ≤ tfidf_score_of tc) : 0 ≤ compute_similarity f1 f2 tc := by
  obtain ⟨hy0, hy1⟩ := year_score_bounds f1.years f2.years
  obtain ⟨hd0, hd1⟩ := date_score_eq_year_score ▸ year_score_bounds f1.dates f2.dates
  obtain ⟨ht0, ht1⟩ := topic_score_bounds f1.topics f2.topics
  obtain ⟨hk0, hk1⟩ := term_score_bounds f1.terms f2.terms
  obtain ⟨he0, he1⟩ := entity_score_eq_topic_score ▸ topic_score_bounds f1.entities f2.entities
  obtain ⟨hn0, hn1⟩ := number_score_eq_topic_score ▸ topic_score_bounds f1.numbers f2.numbers
  simp only [compute_similarity]
  split
  · exact le_min (by norm_num) (by nlinarith)
  · nlinarith

/-- The combined score is at most 1 whenever the TF-IDF value is. -/
theorem compute_similarity_le_one (f1 f2 : Features) (tc : Except Unit ℚ)
    (htf : tfidf_score_of tc ≤ 1) : compute_similarity f1 f2 tc ≤ 1 := by
  obtain ⟨hy0, hy1⟩ := year_score_bounds f1.years f2.years
  obtain ⟨hd0, hd1⟩ := date_score_eq_year_score ▸ year_score_bounds f1.dates f2.dates
  obtain ⟨ht0, ht1⟩ := topic_score_bounds f1.topics f2.topics
  obtain ⟨hk0, hk1⟩ := term_score_bounds f1.terms f2.terms
  obtain ⟨he0, he1⟩ := entity_score_eq_topic_score ▸ topic_score_bounds f1.entities f2.entities
  obtain ⟨hn0, hn1⟩ := number_score_eq_topic_score ▸ topic_score_bounds f1.numbers f2.numbers
  simp only [compute_similarity]
  split
  · exact min_le_left _ _
  · linarith

/-! ## Claim C4: the three overlap scores versus Jaccard (corrected) -/

/-- Counterexample to C4: the topic, entity and number scores are not the
Jaccard similarity of the two sets.  The two topic sets are extracted from
the concrete titles "election bitcoin" and "election fed"; they share one
topic out of three distinct ones, so Jaccard would be 1/3 while the code
computes 1/2. -/
theorem overlap_scores_not_jaccard :
    (detect_topic "election bitcoin").Nonempty ∧ (detect_topic "election fed").Nonempty ∧
    topic_score (detect_topic "election bitcoin") (detect_topic "election fed") ≠
      jaccardSpec (detect_topic "election bitcoin") (detect_topic "election fed") ∧
    entity_score {"trump", "vance"} {"trump", "musk"} ≠
      jaccardSpec {"trump", "vance"} {"trump", "musk"} ∧
    number_score {"100", "50"} {"100", "30"} ≠ jaccardSpec {"100", "50"} {"100", "30"} := by
  with_unfolding_all decide

/-- Equality of one max-denominator block with the spec-side overlap
coefficient, under the nonemptiness guards. -/
theorem topic_score_eq_overlapMax (s1 s2 : Finset String)
    (h1 : s1.Nonempty) (h2 : s2.Nonempty) :
    topic_score s1 s2 = overlapMaxSpec s1 s2 := by
  unfold topic_score overlapMaxSpec
  rw [if_pos ⟨h1, h2⟩]
  by_cases hc : (s1 ∩ s2).Nonempty
  · rw [if_pos hc]
  · rw [if_neg hc]
    have h0 : (s1 ∩ s2).card = 0 :=
      Finset.card_eq_zero.mpr (Finset.not_nonempty_iff_eq_empty.mp hc)
    rw [h0]
    norm_num

/-- Claim C4 amended: whenever both feature sets of a pair are non-empty, the
topic-overlap, entity-overlap and number-overlap scores are each the size of
the intersection divided by the size of the LARGER of the two sets (the
overlap coefficient), not the Jaccard similarity. -/
theorem overlap_scores_use_max_denominator (t1 t2 e1 e2 n1 n2 : Finset String)
    (ht1 : t1.Nonempty) (ht2 : t2.Nonempty) (he1 : e1.Nonempty) (he2 : e2.Nonempty)
    (hn1 : n1.Nonempty) (hn2 : n2.Nonempty) :
    topic_score t1 t2 = overlapMaxSpec t1 t2
    ∧ entity_score e1 e2 = overlapMaxSpec e1 e2
    ∧ number_score n1 n2 = overlapMaxSpec n1 n2 :=
  ⟨topic_score_eq_overlapMax t1 t2 ht1 ht2,
   entity_score_eq_topic_score ▸ topic_score_eq_overlapMax e1 e2 he1 he2,
   number_score_eq_topic_score ▸ topic_score_eq_overlapMax n1 n2 hn1 hn2⟩

/-- Witness for the amended C4 at the concrete topic sets of the
counterexample: 1/2 on the code side equals the overlap coefficient. -/
theorem overlap_scores_use_max_denominator_witness :
    topic_score (detect_topic "election bitcoin") (detect_topic "election fed") =
      overlapMaxSpec (detect_topic "election bitcoin") (detect_topic "election fed") :=
  (overlap_scores_use_max_denominator
    (detect_topic "election bitcoin") (detect_topic "election fed")
    {"a"} {"a"} {"a"} {"a"}
    (by with_unfolding_all decide) (by with_unfolding_all decide)
    (by with_unfolding_all decide) (by with_unfolding_all decide)
    (by with_unfolding_all decide) (by with_unfolding_all decide)).1

/-! ## Claim C5: the corroboration bonus -/

/-- Claim C5: the combined score is the plain weighted sum `base`, except that
when at least three of the four strong-signal tests pass (year above 0.5,
topic above 0.5, term above 0.3, entity above 0.3) it is multiplied by the
fixed factor 1.2 and capped at 1.0. -/
theorem corroboration_bonus (f1 f2 : Features) (tc : Except Unit ℚ) (base : ℚ) (strong : ℕ)
    (hbase : base = 25/100 * year_score f1.years f2.years +
      10/100 * date_score f1.dates f2.dates +
      15/100 * topic_score f1.topics f2.topics +
      20/100 * term_score f1.terms f2.terms +
      10/100 * entity_score f1.entities f2.entities +
      5/100 * number_score f1.numbers f2.numbers +
      15/100 * tfidf_score_of tc)
    (hstrong : strong = (if year_score f1.years f2.years > 1/2 then 1 else 0)
      + (if topic_score f1.topics f2.topics > 1/2 then 1 else 0)
      + (if term_score f1.terms f2.terms > 3/10 then 1 else 0)
      + (if entity_score f1.entities f2.entities > 3/10 then 1 else 0)) :
    (3 ≤ strong → compute_similarity f1 f2 tc = min 1 (base * (12/10)))
    ∧ (strong < 3 → compute_similarity f1 f2 tc = base) := by
  subst hbase
  subst hstrong
  simp only [compute_similarity, strong_signals]
  constructor
  · intro h3
    rw [if_pos h3]
  · intro h3
    rw [if_neg (not_le.mpr h3)]

/-- Witness for C5 at concrete features with exactly three strong signals
(year 1, topic 1, term 1): base is 0.6 and the bonus applies. -/
theorem corroboration_bonus_witness :
    compute_similarity exStrongF exStrongF (Except.ok 0) = min 1 ((3/5) * (12/10)) :=
  (corroboration_bonus exStrongF exStrongF (Except.ok 0) (3/5) 3
    (by with_unfolding_all decide) (by with_unfolding_all decide)).1 (by norm_num)

/-! ## Claim C6: the combined score lies in the unit interval -/

/-- Claim C6: every individual signal lies in the unit interval, the seven
fixed weights sum to 1, and whenever the TF-IDF value lies in the unit
interval (as a cosine similarity of nonnegative vectors does) the combined
score lies in the unit interval. -/
theorem compute_similarity_in_unit_interval (f1 f2 : Features) (tc : Except Unit ℚ)
    (htf0 : 0 ≤ tfidf_score_of tc) (htf1 : tfidf_score_of tc ≤ 1) :
    (0 ≤ year_score f1.years f2.years ∧ year_score f1.years f2.years ≤ 1)
    ∧ (0 ≤ date_score f1.dates f2.dates ∧ date_score f1.dates f2.dates ≤ 1)
    ∧ (0 ≤ topic_score f1.topics f2.topics ∧ topic_score f1.topics f2.topics ≤ 1)
    ∧ (0 ≤ term_score f1.terms f2.terms ∧ term_score f1.terms f2.terms ≤ 1)
    ∧ (0 ≤ entity_score f1.entities f2.entities ∧ entity_score f1.entities f2.entities ≤ 1)
    ∧ (0 ≤ number_score f1.numbers f2.numbers ∧ number_score f1.numbers f2.numbers ≤ 1)
    ∧ ((25:ℚ)/100 + 10/100 + 15/100 + 20/100 + 10/100 + 5/100 + 15/100 = 1)
    ∧ (0 ≤ compute_similarity f1 f2 tc ∧ compute_similarity f1 f2 tc ≤ 1) := by
  obtain ⟨hy0, hy1⟩ := year_score_bounds f1.years f2.years
  obtain ⟨hd0, hd1⟩ := date_score_eq_year_score ▸ year_score_bounds f1.dates f2.dates
  obtain ⟨ht0, ht1⟩ := topic_score_bounds f1.topics f2.topics
  obtain ⟨hk0, hk1⟩ := term_score_bounds f1.terms f2.terms
  obtain ⟨he0, he1⟩ := entity_score_eq_topic_score ▸ topic_score_bounds f1.entities f2.entities
  obtain ⟨hn0, hn1⟩ := number_score_eq_topic_score ▸ topic_score_bounds f1.numbers f2.numbers
  refine ⟨⟨hy0, hy1⟩, ⟨hd0, hd1⟩, ⟨ht0, ht1⟩, ⟨hk0, hk1⟩, ⟨he0, he1⟩, ⟨hn0, hn1⟩,
    by norm_num, ?_, ?_⟩
  · exact compute_similarity_nonneg f1 f2 tc htf0
  · exact compute_similarity_le_one f1 f2 tc htf1

/-- Witness for C6 at the concrete features and a successful TF-IDF value 1. -/
theorem compute_similarity_in_unit_interval_witness :
    0 ≤ compute_similarity exFeats exFeats (Except.ok 1) ∧
      compute_similarity exFeats exFeats (Except.ok 1) ≤ 1 :=
  (compute_similarity_in_unit_interval exFeats exFeats (Except.ok 1)
    (by norm_num [tfidf_score_of]) (by norm_num [tfidf_score_of])).2.2.2.2.2.2.2

/-! ## Claim C8: self-similarity is maximal against disjoint-signal texts -/

/-- Claim C8: if every feature set of `g` is disjoint from the corresponding
set of `f` and the TF-IDF step for the mixed pair yields 0 (disjoint
vocabulary), then the score of the pair (f, g) is at most the score of
(f, f), whatever nonnegative TF-IDF value the self-pair gets. -/
theorem self_similarity_maximal (f g : Features) (txx : ℚ) (hxx : 0 ≤ txx)
    (txy : Except Unit ℚ) (hxy : tfidf_score_of txy = 0)
    (hy : Disjoint f.years g.years) (hd : Disjoint f.dates g.dates)
    (ht : Disjoint f.topics g.topics) (hk : Disjoint f.terms g.terms)
    (he : Disjoint f.entities g.entities) (hn : Disjoint f.numbers g.numbers) :
    compute_similarity f g txy ≤ compute_similarity f f (Except.ok txx) := by
  have hzero : compute_similarity f g txy = 0 := by
    simp only [compute_similarity,
      year_score_disjoint _ _ hy,
      date_score_eq_year_score ▸ year_score_disjoint f.dates g.dates hd,
      topic_score_disjoint _ _ ht,
      term_score_disjoint _ _ hk,
      entity_score_eq_topic_score ▸ topic_score_disjoint f.entities g.entities he,
      number_score_eq_topic_score ▸ topic_score_disjoint f.numbers g.numbers hn,
      hxy]
    norm_num
  rw [hzero]
  exact compute_similarity_nonneg f f (Except.ok txx) hxx

/-- Witness for C8: a features bundle against the empty bundle (all signals
disjoint), with TF-IDF 0 on the mixed pair and 1 on the self pair. -/
theorem self_similarity_maximal_witness :
    compute_similarity exFeats ⟨∅, ∅, ∅, ∅, ∅, ∅⟩ (Except.ok 0) ≤
      compute_similarity exFeats exFeats (Except.ok 1) :=
  self_similarity_maximal exFeats ⟨∅, ∅, ∅, ∅, ∅, ∅⟩ 1 (by norm_num) (Except.ok 0) rfl
    (by simp) (by simp) (by simp) (by simp) (by simp) (by simp)

/-! ## Helper lemmas for match resolution -/

/-- Full characterization of the best-candidate fold of
_find_best_match_for_event, for any starting accumulator: the result is the
accumulator itself or pairs some scanned candidate with its own score, its
kept score never decreases, and the kept score dominates the scores of all
scanned candidates. -/
theorem bestFold_spec (tf : MEvent → MEvent → Except Unit ℚ) (k : MEvent)
    (ps : List MEvent) (acc : Option MEvent × ℚ) :
    (ps.foldl (bestStep tf k) acc = acc ∨
      ∃ b ∈ ps, (ps.foldl (bestStep tf k) acc).1 = some b ∧
        (ps.foldl (bestStep tf k) acc).2 = pairScore tf k b)
    ∧ acc.2 ≤ (ps.foldl (bestStep tf k) acc).2
    ∧ ∀ p ∈ ps, pairScore tf k p ≤ (ps.foldl (bestStep tf k) acc).2 := by
  induction ps generalizing acc with
  | nil => exact ⟨Or.inl rfl, le_refl _, by simp⟩
  | cons p ps ih =>
    simp only [List.foldl_cons]
    obtain ⟨hcase, hle, hall⟩ := ih (bestStep tf k acc p)
    have hstep : bestStep tf k acc p = acc ∨
        (bestStep tf k acc p = (some p, pairScore tf k p) ∧ acc.2 < pairScore tf k p) := by
      unfold bestStep
      by_cases h : pairScore tf k p > acc.2
      · exact Or.inr ⟨if_pos h, h⟩
      · exact Or.inl (if_neg h)
    have hacc2 : acc.2 ≤ (bestStep tf k acc p).2 := by
      rcases hstep with h | ⟨h, hlt⟩
      · rw [h]
      · rw [h]
        exact le_of_lt hlt
    refine ⟨?_, le_trans hacc2 hle, ?_⟩
    · rcases hcase with h | ⟨b, hb, h1, h2⟩
      · rcases hstep with h2 | ⟨h2, hlt⟩
        · rw [h, h2]
          exact Or.inl rfl
        · refine Or.inr ⟨p, List.mem_cons_self p ps, ?_, ?_⟩ <;> rw [h, h2]
      · exact Or.inr ⟨b, List.mem_cons_of_mem p hb, h1, h2⟩
    · intro q hq
      rcases List.mem_cons.mp hq with rfl | hq2
      · have hstepq : pairScore tf k q ≤ (bestStep tf k acc q).2 := by
          unfold bestStep
          by_cases h : pairScore tf k q > acc.2
          · rw [if_pos h]
          · rw [if_neg h]
            exact le_of_not_lt h
        exact le_trans hstepq hle
      · exact hall q hq2

/-- What a returned best match satisfies: its left component is the queried
event, its right component is a candidate whose score is the kept score, the
kept score reaches the threshold and dominates every candidate's score. -/
theorem find_best_match_spec (tf : MEvent → MEvent → Except Unit ℚ) (k : MEvent)
    (ps : List MEvent) (t : ℚ) (r : MEvent × MEvent × ℚ)
    (h : find_best_match_for_event tf k ps t = some r) :
    r.1 = k ∧ r.2.1 ∈ ps ∧ r.2.2 = pairScore tf k r.2.1 ∧ t ≤ r.2.2 ∧
      ∀ p ∈ ps, pairScore tf k p ≤ r.2.2 := by
  simp only [find_best_match_for_event] at h
  obtain ⟨hcase, hle, hall⟩ := bestFold_spec tf k ps (none, 0)
  rcases hr1 : (ps.foldl (bestStep tf k) (none, 0)).1 with _ | b
  · simp only [hr1] at h
    exact Option.noConfusion h
  · simp only [hr1] at h
    by_cases hth : (ps.foldl (bestStep tf k) (none, 0)).2 ≥ t
    · rw [if_pos hth] at h
      injection h with h2
      subst h2
      rcases hcase with hc | ⟨b2, hb2, hb21, hb22⟩
      · rw [hc] at hr1
        exact absurd hr1 (by simp)
      · rw [hr1] at hb21
        injection hb21 with hb21
        subst hb21
        exact ⟨rfl, hb2, hb22, hth, hall⟩
    · rw [if_neg hth] at h
      exact absurd h (by simp)

/-- Lowering the threshold preserves a returned best match unchanged. -/
theorem find_best_match_mono (tf : MEvent → MEvent → Except Unit ℚ) (k : MEvent)
    (ps : List MEvent) (t t' : ℚ) (hts : t' ≤ t) (r : MEvent × MEvent × ℚ)
    (h : find_best_match_for_event tf k ps t = some r) :
    find_best_match_for_event tf k ps t' = some r := by
  simp only [find_best_match_for_event] at h ⊢
  rcases hr1 : (ps.foldl (bestStep tf k) (none, 0)).1 with _ | b
  · simp only [hr1] at h
    exact Option.noConfusion h
  · simp only [hr1] at h ⊢
    by_cases hth : (ps.foldl (bestStep tf k) (none, 0)).2 ≥ t
    · rw [if_pos hth] at h
      rw [if_pos (le_trans hts hth)]
      exact h
    · rw [if_neg hth] at h
      exact absurd h (by simp)

/-- filterMap length is monotone under pointwise implication of success. -/
theorem length_filterMap_mono {α β : Type} (f g : α → Option β) (l : List α)
    (h : ∀ a r, f a = some r → g a = some r) :
    (l.filterMap f).length ≤ (l.filterMap g).length := by
  induction l with
  | nil => simp
  | cons x xs ih =>
    rcases hfx : f x with _ | b
    · rcases hgx : g x with _ | c
      · simp only [List.filterMap_cons, hfx, hgx]
        exact ih
      · simp only [List.filterMap_cons, hfx, hgx, List.length_cons]
        exact le_trans ih (Nat.le_succ _)
    · have hgx := h x b hfx
      simp only [List.filterMap_cons, hfx, hgx, List.length_cons]
      exact Nat.succ_le_succ ih

/-- Each left-side event occurrence yields at most one tuple of the raw
(unsorted) match list. -/
theorem count_fst_filterMap (tf : MEvent → MEvent → Except Unit ℚ)
    (ps : List MEvent) (t : ℚ) (ks : List MEvent) (a : MEvent) :
    ((ks.filterMap (fun k => find_best_match_for_event tf k ps t)).map
        (fun m => m.1)).count a ≤ ks.count a := by
  induction ks with
  | nil => simp
  | cons x xs ih =>
    rcases hfx : find_best_match_for_event tf x ps t with _ | r
    · simp only [List.filterMap_cons, hfx, List.count_cons]
      exact le_trans ih (Nat.le_add_right _ _)
    · have hr1 : r.1 = x := (find_best_match_spec tf x ps t r hfx).1
      simp only [List.filterMap_cons, hfx, List.map_cons, List.count_cons, hr1]
      exact Nat.add_le_add_right ih _

/-- The merge sort used by find_matches produces a list sorted by score
descending. -/
theorem mergeSort_score_sorted (l : List (MEvent × MEvent × ℚ)) :
    (l.mergeSort (fun x y => decide (y.2.2 ≤ x.2.2))).Sorted
      (fun x y => y.2.2 ≤ x.2.2) := by
  have h := @List.sorted_mergeSort (MEvent × MEvent × ℚ)
    (fun x y => decide (y.2.2 ≤ x.2.2))
    (fun a b c hab hbc => by
      simp only [decide_eq_true_eq] at *
      exact le_trans hbc hab)
    (fun a b => by
      simp only [Bool.or_eq_true, decide_eq_true_eq]
      exact le_total b.2.2 a.2.2)
    l
  exact h.imp (fun hab => by simpa using hab)

/-! ## Claim C3: contract of find_matches -/

/-- Claim C3: for every pair of input collections and every passed threshold
t, find_matches returns at most one tuple per left-side event occurrence;
every returned tuple pairs a member of A with a member of B whose score is
the maximum over all of B and reaches t; the result is sorted by score
descending; and an empty side yields the empty list. -/
theorem find_matches_correct (tf : MEvent → MEvent → Except Unit ℚ)
    (ks ps : List MEvent) (t : ℚ) :
    (∀ a : MEvent,
      ((find_matches tf ks ps (some t)).map (fun m => m.1)).count a ≤ ks.count a)
    ∧ (∀ m ∈ find_matches tf ks ps (some t),
        m.1 ∈ ks ∧ m.2.1 ∈ ps ∧ t ≤ m.2.2 ∧ m.2.2 = pairScore tf m.1 m.2.1 ∧
          ∀ p ∈ ps, pairScore tf m.1 p ≤ m.2.2)
    ∧ (find_matches tf ks ps (some t)).Sorted (fun x y => y.2.2 ≤ x.2.2)
    ∧ ((ks = [] ∨ ps = []) → find_matches tf ks ps (some t) = []) := by
  have hteff : t ≤ (if t = 0 then SIMILARITY_THRESHOLD else t) := by
    by_cases ht : t = 0
    · rw [if_pos ht, ht]
      unfold SIMILARITY_THRESHOLD
      norm_num
    · rw [if_neg ht]
  simp only [find_matches]
  by_cases hemp : (ks.isEmpty || ps.isEmpty) = true
  · rw [if_pos hemp]
    exact ⟨by simp, by simp, by simp, fun _ => rfl⟩
  · rw [if_neg hemp]
    refine ⟨?_, ?_, mergeSort_score_sorted _, ?_⟩
    · intro a
      have hperm := (List.mergeSort_perm
        (ks.filterMap (fun k => find_best_match_for_event tf k ps
          (if t = 0 then SIMILARITY_THRESHOLD else t)))
        (fun x y => decide (y.2.2 ≤ x.2.2))).map (fun m => m.1)
      rw [hperm.count_eq a]
      exact count_fst_filterMap tf ps _ ks a
    · intro m hm
      rw [List.mem_mergeSort, List.mem_filterMap] at hm
      obtain ⟨k, hk, hsome⟩ := hm
      obtain ⟨h1, h2, h3, h4, h5⟩ := find_best_match_spec tf k ps _ m hsome
      subst h1
      exact ⟨hk, h2, le_trans hteff h4, h3, h5⟩
    · intro hor
      exfalso
      apply hemp
      rcases hor with h | h <;> simp [h]

/-! ## Claim C7: threshold monotonicity (corrected) -/

/-- Counterexample to C7 as stated: for thresholds 0 ≤ 1/10, the run with the
HIGHER threshold 1/10 returns strictly more matches, because Python's
`threshold or SIMILARITY_THRESHOLD` treats the falsy 0.0 as absent and
substitutes the default 0.5, while the candidate pair scores 0.35. -/
theorem threshold_monotonicity_cex :
    (0:ℚ) ≤ 1/10 ∧
    ¬ ((find_matches exTfOne [exK] [exP] (some (1/10))).length ≤
        (find_matches exTfOne [exK] [exP] (some 0)).length) := by
  with_unfolding_all decide

/-- Claim C7 amended: raising the threshold never increases the number of
returned matches, provided the lower threshold is not the Python-falsy 0.0
(which find_matches silently replaces by the default 0.5). -/
theorem threshold_monotonicity_nonzero (tf : MEvent → MEvent → Except Unit ℚ)
    (ks ps : List MEvent) (t1 t2 : ℚ) (h12 : t1 ≤ t2) (h1 : t1 ≠ 0) :
    (find_matches tf ks ps (some t2)).length ≤
      (find_matches tf ks ps (some t1)).length := by
  simp only [find_matches]
  by_cases hemp : (ks.isEmpty || ps.isEmpty) = true
  · rw [if_pos hemp, if_pos hemp]
  · rw [if_neg hemp, if_neg hemp, List.length_mergeSort, List.length_mergeSort,
      if_neg h1]
    have heff : t1 ≤ (if t2 = 0 then SIMILARITY_THRESHOLD else t2) := by
      by_cases ht2 : t2 = 0
      · rw [if_pos ht2]
        have hlt : t1 < 0 := lt_of_le_of_ne (ht2 ▸ h12) h1
        unfold SIMILARITY_THRESHOLD
        linarith
      · rw [if_neg ht2]
        exact h12
    exact length_filterMap_mono _ _ ks
      (fun k r hk => find_best_match_mono tf k ps _ t1 heff r hk)

/-! ## Claim C9: TF-IDF failure falls back to the non-vector signals -/

/-- Claim C9: when the TF-IDF vectorization step raises, compute_similarity
still returns (it is a total function into ℚ): the caught exception leaves
tfidf_score at its initial value 0, so the result equals the score computed
from the remaining non-vector signals with a zero tfidf contribution. -/
theorem tfidf_failure_fallback (f1 f2 : Features) (e : Unit) :
    compute_similarity f1 f2 (Except.error e) = compute_similarity f1 f2 (Except.ok 0)
    ∧ tfidf_score_of (Except.error e) = 0 :=
  ⟨rfl, rfl⟩

unseal List.merge List.mergeSort in
/-- Witness for C3 at concrete one-element collections: the match returned
for the pair scoring 1/5 reaches the requested threshold 1/10. -/
theorem find_matches_correct_witness :
    (1:ℚ)/10 ≤ ((exK, exP, (1:ℚ)/5) : MEvent × MEvent × ℚ).2.2 :=
  ((find_matches_correct exTfZero [exK] [exP] (1/10)).2.1 (exK, exP, 1/5)
    (by with_unfolding_all decide)).2.2.1

/-- Witness for the amended C7 at two nonzero thresholds 1/10 ≤ 2/10. -/
theorem threshold_monotonicity_nonzero_witness :
    (find_matches exTfOne [exK] [exP] (some (2/10))).length ≤
      (find_matches exTfOne [exK] [exP] (some (1/10))).length :=
  threshold_monotonicity_nonzero exTfOne [exK] [exP] (1/10) (2/10)
    (by norm_num) (by norm_num)

/-! ## Claim C1: single-market arbitrage detection -/

/-- Claim C1: for a market whose outcomes yield both a Yes and a No best
price, an opportunity is reported exactly when yes + no < 1 - 0.01; and every
reported opportunity has yes + no < 1 strictly, total_cost = yes + no,
profit = 1 - total_cost, profit_percent = (1 - cost)/cost * 100 exactly,
guaranteed_return = 1.0 and expected_value = 1/total_cost. -/
theorem detect_single_market_arb_correct (m : Market) (y n : ℚ)
    (h : get_best_prices m.outcomes = (some y, some n)) :
    ((detect_single_market_arb m).isSome ↔ y + n < 1 - 1/100)
    ∧ ∀ opp, detect_single_market_arb m = some opp →
        y + n < 1 ∧ opp.totalCost = y + n ∧ opp.profit = 1 - (y + n)
        ∧ opp.profitPercent = (1 - (y + n)) / (y + n) * 100
        ∧ opp.guaranteedReturn = 1 ∧ opp.expectedValue = 1 / (y + n) := by
  constructor
  · simp only [detect_single_market_arb, h]
    by_cases hc : y + n < 1 - MIN_PROFIT_THRESHOLD
    · rw [if_pos hc]
      simp only [Option.isSome_some, true_iff]
      unfold MIN_PROFIT_THRESHOLD at hc
      exact hc
    · rw [if_neg hc]
      unfold MIN_PROFIT_THRESHOLD at hc
      simp only [Option.isSome_none, Bool.false_eq_true, false_iff]
      exact hc
  · intro opp hopp
    simp only [detect_single_market_arb, h] at hopp
    by_cases hc : y + n < 1 - MIN_PROFIT_THRESHOLD
    · rw [if_pos hc] at hopp
      injection hopp with h2
      subst h2
      unfold MIN_PROFIT_THRESHOLD at hc
      exact ⟨by linarith, rfl, rfl, rfl, rfl, rfl⟩
    · rw [if_neg hc] at hopp
      exact Option.noConfusion hopp

/-- Witness for C1 at the spec's concrete scenario (Yes 0.40, No 0.55):
0.95 < 0.99, so an opportunity is present. -/
theorem detect_single_market_arb_correct_witness :
    (detect_single_market_arb exMarket).isSome :=
  (detect_single_market_arb_correct exMarket (2/5) (11/20)
    (by with_unfolding_all decide)).1.mpr (by norm_num)

/-! ## Claim C10: missing or non-positive prices on one side -/

/-- The price fold keeps the Yes slot at None when no Yes-named outcome
passes the positive-price test. -/
theorem priceFold_yes_none (outs : List Outcome) (acc : Option ℚ × Option ℚ)
    (hacc : acc.1 = none)
    (h : ∀ o ∈ outs, isYesName o.name = true → goodPrice o.price = false) :
    (outs.foldl priceStep acc).1 = none := by
  induction outs generalizing acc with
  | nil => exact hacc
  | cons o os ih =>
    simp only [List.foldl_cons]
    apply ih
    · unfold priceStep
      by_cases hg : goodPrice o.price = true
      · rw [if_pos hg]
        have hy : ¬ (isYesName o.name = true) := by
          intro hyy
          rw [h o (List.mem_cons_self o os) hyy] at hg
          exact Bool.false_ne_true hg
        rw [if_neg hy]
        by_cases hn : isNoName o.name = true
        · rw [if_pos hn]
          exact hacc
        · rw [if_neg hn]
          exact hacc
      · rw [if_neg hg]
        exact hacc
    · exact fun o2 ho2 hy2 => h o2 (List.mem_cons_of_mem o ho2) hy2

/-- The price fold keeps the No slot at None when no No-named outcome passes
the positive-price test. -/
theorem priceFold_no_none (outs : List Outcome) (acc : Option ℚ × Option ℚ)
    (hacc : acc.2 = none)
    (h : ∀ o ∈ outs, isNoName o.name = true → goodPrice o.price = false) :
    (outs.foldl priceStep acc).2 = none := by
  induction outs generalizing acc with
  | nil => exact hacc
  | cons o os ih =>
    simp only [List.foldl_cons]
    apply ih
    · unfold priceStep
      by_cases hg : goodPrice o.price = true
      · rw [if_pos hg]
        by_cases hyy : isYesName o.name = true
        · rw [if_pos hyy]
          exact hacc
        · rw [if_neg hyy]
          by_cases hn : isNoName o.name = true
          · exfalso
            rw [h o (List.mem_cons_self o os) hn] at hg
            exact Bool.false_ne_true hg
          · rw [if_neg hn]
            exact hacc
      · rw [if_neg hg]
        exact hacc
    · exact fun o2 ho2 hn2 => h o2 (List.mem_cons_of_mem o ho2) hn2

/-- Claim C10: a missing price never passes the filter; a present price
passes iff it is positive (so zero and negative prices are rejected); a side
all of whose outcomes fail the filter yields None for that side; and
detect_single_market_arb returns None whenever either side is None — hence a
market whose Yes (or No) price is exactly 0 never yields a single-market
opportunity even when the arithmetic threshold test would pass. -/
theorem missing_price_side_yields_none (m : Market) :
    (goodPrice none = false)
    ∧ (∀ p : ℚ, goodPrice (some p) = false ↔ p ≤ 0)
    ∧ ((∀ o ∈ m.outcomes, isYesName o.name = true → goodPrice o.price = false) →
        (get_best_prices m.outcomes).1 = none)
    ∧ ((∀ o ∈ m.outcomes, isNoName o.name = true → goodPrice o.price = false) →
        (get_best_prices m.outcomes).2 = none)
    ∧ (((get_best_prices m.outcomes).1 = none ∨ (get_best_prices m.outcomes).2 = none) →
        detect_single_market_arb m = none) := by
  refine ⟨rfl, ?_, ?_, ?_, ?_⟩
  · intro p
    constructor
    · intro hf
      by_contra hpos
      rw [not_le] at hpos
      have hne : (p != 0) = true := bne_iff_ne.mpr (ne_of_gt hpos)
      have hgt : decide (p > 0) = true := decide_eq_true hpos
      simp [goodPrice, hne, hgt] at hf
    · intro hp
      have hd : decide (p > 0) = false := decide_eq_false (not_lt.mpr hp)
      simp [goodPrice, hd]
  · intro h
    exact priceFold_yes_none m.outcomes (none, none) rfl h
  · intro h
    exact priceFold_no_none m.outcomes (none, none) rfl h
  · intro hnone
    rcases hbp : get_best_prices m.outcomes with ⟨a, b⟩
    rw [hbp] at hnone
    unfold detect_single_market_arb
    rw [hbp]
    rcases a with _ | pa
    · rcases b with _ | pb
      · rfl
      · rfl
    · rcases b with _ | pb
      · rfl
      · rcases hnone with hx | hx <;> exact Option.noConfusion hx

/-- Witness for C10: the market with Yes priced exactly 0 and No priced 0.5
yields no opportunity, although 0 + 0.5 < 0.99. -/
theorem missing_price_side_yields_none_witness :
    detect_single_market_arb exZeroMarket = none :=
  (missing_price_side_yields_none exZeroMarket).2.2.2.2
    (Or.inl ((missing_price_side_yields_none exZeroMarket).2.2.1
      (by with_unfolding_all decide)))

/-! ## Claim C2: opportunity snapshot invariant of save_opportunities -/

/-- Claim C2: after save_opportunities, the active rows are exactly the batch
just inserted — in particular their count equals the input count — and any
row carrying the id of a pre-existing row is inactive; the hypothesis says
the fresh auto-increment ids do not collide with existing ids. -/
theorem save_opportunities_snapshot (db : List OppRow) (nextId : ℕ)
    (opps : List DetectedOpp) (hfresh : ∀ r ∈ db, r.oppId < nextId) :
    ((save_opportunities db nextId opps).filter (fun r => r.isActive) =
      newOppRows nextId opps)
    ∧ (((save_opportunities db nextId opps).filter (fun r => r.isActive)).length =
      opps.length)
    ∧ (∀ r ∈ db, ∀ r2 ∈ save_opportunities db nextId opps,
        r2.oppId = r.oppId → r2.isActive = false) := by
  have hfilter : (save_opportunities db nextId opps).filter (fun r => r.isActive) =
      newOppRows nextId opps := by
    unfold save_opportunities
    rw [List.filter_append]
    have h1 : (db.map (fun r => { r with isActive := false })).filter
        (fun r => r.isActive) = [] := by
      rw [List.filter_eq_nil_iff]
      intro r hr
      obtain ⟨s, hs, rfl⟩ := List.mem_map.mp hr
      simp
    have h2 : (newOppRows nextId opps).filter (fun r => r.isActive) =
        newOppRows nextId opps := by
      rw [List.filter_eq_self]
      intro r hr
      obtain ⟨p, hp, rfl⟩ := List.mem_map.mp hr
      rfl
    rw [h1, h2, List.nil_append]
  refine ⟨hfilter, ?_, ?_⟩
  · rw [hfilter]
    unfold newOppRows
    rw [List.length_map, List.enum_length]
  · intro r hr r2 hr2 hid
    unfold save_opportunities at hr2
    rcases List.mem_append.mp hr2 with hm | hm
    · obtain ⟨s, hs, rfl⟩ := List.mem_map.mp hm
      rfl
    · exfalso
      unfold newOppRows at hm
      obtain ⟨p, hp, rfl⟩ := List.mem_map.mp hm
      have h2 := hfresh r hr
      have hid2 : nextId + p.1 = r.oppId := hid
      omega

/-- Witness for C2 at a concrete table of two rows (ids 0 and 1, one active)
and a batch of two detections inserted with ids from 2. -/
theorem save_opportunities_snapshot_witness :
    ((save_opportunities exDb 2 exOpps).filter (fun r => r.isActive)).length =
      exOpps.length :=
  (save_opportunities_snapshot exDb 2 exOpps (by with_unfolding_all decide)).2.1

end RealTradingGod
